import Mathlib

/-!
# Turf-match-finder: booking & team-membership core, shallowly embedded

A shallow embedding of the booking / slot-availability / team-membership
handlers of the turf-match-finder server (`src/server/src/handlers/`),
together with proofs of the cross-cutting invariants stated in the
specification.

The relational store (`src/server/src/db/schema.ts`) is modelled as a record
of row lists, one per table; each drizzle query (`select ... where eq`,
`innerJoin`, `insert ... returning`, `update ... returning`,
`delete ... returning`) is translated to the corresponding list operation,
keeping the source's order of checks and its early-throw structure
(`throw new Error(...)` becomes `Except.error` with one constructor per
distinct throw site).  Serial primary keys are modelled by `next*Id`
counters; `timestamp` columns by a `Nat` instant passed in as `now`
(`new Date()` / `defaultNow()`).  The `numeric(10,2)` currency columns are
stored as decimal strings in postgres and round-tripped through
`parseFloat`/`toString` by the handlers; since that round trip is exact for
values of scale 2, the column is modelled directly as `ℚ` and the coercions
as the identity.  Columns that none of the embedded handlers read or write
(user e-mail and profile fields, field address, slot start/end times, team
description) are omitted from the row types.
-/

namespace TurfMatch

/-- `booking_status` enum from `db/schema.ts`: `['pending','confirmed','cancelled']`. -/
inductive BookingStatus where
  | pending
  | confirmed
  | cancelled
deriving DecidableEq, Repr

/-- A `users` row (only the primary key is consulted by the embedded handlers). -/
structure UserRow where
  id : Nat
deriving DecidableEq, Repr

/-- A `fields` row: `owner_id` references `users.id`. -/
structure FieldRow where
  id : Nat
  owner_id : Nat
deriving DecidableEq, Repr

/-- A `field_slots` row: `field_id` references `fields.id`; `price` is the
`numeric(10,2)` column, modelled as `ℚ`; `is_available` defaults to true. -/
structure FieldSlotRow where
  id : Nat
  field_id : Nat
  price : ℚ
  is_available : Bool
deriving DecidableEq, Repr

/-- A `teams` row: `captain_id` references `users.id`. -/
structure TeamRow where
  id : Nat
  captain_id : Nat
  name : String
  skill_level : Int
deriving DecidableEq, Repr

/-- A `team_members` row: the join record associating a user with a team. -/
structure TeamMemberRow where
  id : Nat
  team_id : Nat
  user_id : Nat
  joined_at : Nat
deriving DecidableEq, Repr

/-- A `bookings` row.  `team_id` is nullable; `status` defaults to `pending`;
`total_price` is the `numeric(10,2)` column, modelled as `ℚ`. -/
structure BookingRow where
  id : Nat
  slot_id : Nat
  user_id : Nat
  team_id : Option Nat
  status : BookingStatus
  total_price : ℚ
  notes : Option String
  created_at : Nat
  updated_at : Nat
deriving DecidableEq, Repr

/-- The relational store: one list of rows per table touched by the embedded
handlers, plus the serial counters supplying fresh primary keys. -/
structure DB where
  users : List UserRow
  fields : List FieldRow
  fieldSlots : List FieldSlotRow
  teams : List TeamRow
  teamMembers : List TeamMemberRow
  bookings : List BookingRow
  nextBookingId : Nat
  nextTeamMemberId : Nat
deriving DecidableEq, Repr

/-- `CreateBookingInput` from `schema.ts`: `slot_id: z.number()`,
`team_id: z.number().optional()`, `notes: z.string().optional()`. -/
structure CreateBookingInput where
  slot_id : Nat
  team_id : Option Nat
  notes : Option String
deriving DecidableEq, Repr

/-- `AddTeamMemberInput` from `schema.ts`: `team_id: z.number()`, `user_id: z.number()`. -/
structure AddTeamMemberInput where
  team_id : Nat
  user_id : Nat
deriving DecidableEq, Repr

/-- The spec's error taxonomy (§7): NotFound / NotAuthorized / Conflict /
InvalidOperation. -/
inductive ErrKind where
  | notFound
  | notAuthorized
  | conflict
  | invalidOperation
deriving DecidableEq, Repr

/-- The distinct throw sites of `createBooking` (`handlers/create_booking.ts`). -/
inductive CreateBookingError where
  | userNotFound
  | slotNotFound
  | slotNotAvailable
  | teamNotFound
  | notTeamMember
deriving DecidableEq, Repr

/-- Spec taxonomy kind of each `createBooking` throw site. -/
def CreateBookingError.kind : CreateBookingError → ErrKind
  | .userNotFound => .notFound
  | .slotNotFound => .notFound
  | .slotNotAvailable => .conflict
  | .teamNotFound => .notFound
  | .notTeamMember => .notAuthorized

/-- JavaScript truthiness of an optional numeric field: `0`, `null` and
`undefined` are falsy (`if (input.team_id)` and `input.team_id || null`). -/
def jsTruthyNum : Option Nat → Bool
  | some n => n != 0
  | none => false

/-- `input.team_id || null`: the falsy values `0`/`undefined` collapse to null. -/
def jsNumOrNull (o : Option Nat) : Option Nat :=
  if jsTruthyNum o then o else none

/-- `input.notes || null`: the falsy values `""`/`undefined` collapse to null. -/
def jsStrOrNull : Option String → Option String
  | some s => if s = "" then none else some s
  | none => none

/-- The team block of `createBooking` (`create_booking.ts` lines 33–72):
`if (input.team_id) { ... }` — the guard is JS truthiness, so `team_id = 0`
skips the whole block.  Inside: team-existence check, then captaincy query
(`teams` filtered by id and `captain_id`), then fallback membership query on
`team_members`. -/
def teamMembershipCheck (db : DB) (team_id : Option Nat) (userId : Nat) :
    Except CreateBookingError Unit :=
  match team_id with
  | some tid =>
    if tid == 0 then .ok ()
    else if (db.teams.filter (fun t => t.id == tid)).length == 0 then
      .error .teamNotFound
    else if (db.teams.filter (fun t => t.id == tid && t.captain_id == userId)).length == 0 then
      if (db.teamMembers.filter
            (fun m => m.team_id == tid && m.user_id == userId)).length == 0 then
        .error .notTeamMember
      else .ok ()
    else .ok ()
  | none => .ok ()

/-- `createBooking` (`handlers/create_booking.ts`): user-existence check, slot
lookup, availability check, optional team-existence + captaincy/membership
check (guarded by JS truthiness of `team_id`), then one insert snapshotting
the slot's price; the inserted row takes the column defaults
`status = pending`, `created_at = updated_at = now`. -/
def createBooking (db : DB) (input : CreateBookingInput) (userId : Nat) (now : Nat) :
    Except CreateBookingError (DB × BookingRow) :=
  if (db.users.filter (fun u => u.id == userId)).length == 0 then
    .error .userNotFound
  else
    match (db.fieldSlots.filter (fun s => s.id == input.slot_id)).head? with
    | none => .error .slotNotFound
    | some fieldSlot =>
      if !fieldSlot.is_available then
        .error .slotNotAvailable
      else
        match teamMembershipCheck db input.team_id userId with
        | .error e => .error e
        | .ok _ =>
          let totalPrice := fieldSlot.price
          let booking : BookingRow :=
            { id := db.nextBookingId
              slot_id := input.slot_id
              user_id := userId
              team_id := jsNumOrNull input.team_id
              status := .pending
              total_price := totalPrice
              notes := jsStrOrNull input.notes
              created_at := now
              updated_at := now }
          .ok ({ db with
                  bookings := db.bookings ++ [booking]
                  nextBookingId := db.nextBookingId + 1 }, booking)

/-- The distinct throw sites of `updateBookingStatus`
(`handlers/update_booking_status.ts`). -/
inductive UpdateBookingError where
  | bookingNotFound
  | notAuthorized
deriving DecidableEq, Repr

/-- Spec taxonomy kind of each `updateBookingStatus` throw site. -/
def UpdateBookingError.kind : UpdateBookingError → ErrKind
  | .bookingNotFound => .notFound
  | .notAuthorized => .notAuthorized

/-- The join `bookings ⋈ field_slots ⋈ fields` filtered by booking id, as a
nested-loop product (drizzle `innerJoin` on `slot_id = slot.id` and
`field_id = field.id`). -/
def bookingJoinRows (db : DB) (bookingId : Nat) : List (BookingRow × FieldSlotRow × FieldRow) :=
  (db.bookings.filter (fun b => b.id == bookingId)).flatMap fun b =>
    (db.fieldSlots.filter (fun s => s.id == b.slot_id)).flatMap fun s =>
      (db.fields.filter (fun f => f.id == s.field_id)).map fun f => (b, s, f)

/-- `updateBookingStatus` (`handlers/update_booking_status.ts`): resolves the
booking joined to its slot's field, authorizes booker-or-field-owner, then
updates `status` and `updated_at` unconditionally and returns the updated row.
The final `none` branch is unreachable (`returning()` is nonempty because the
join found the booking). -/
def updateBookingStatus (db : DB) (bookingId : Nat) (status : BookingStatus)
    (userId : Nat) (now : Nat) : Except UpdateBookingError (DB × BookingRow) :=
  match (bookingJoinRows db bookingId).head? with
  | none => .error .bookingNotFound
  | some (booking, _slot, field) =>
    if booking.user_id != userId && field.owner_id != userId then
      .error .notAuthorized
    else
      let newBookings := db.bookings.map fun b =>
        if b.id == bookingId then { b with status := status, updated_at := now } else b
      match (newBookings.filter (fun b => b.id == bookingId)).head? with
      | none => .error .bookingNotFound
      | some updated => .ok ({ db with bookings := newBookings }, updated)

/-- The distinct throw sites of `addTeamMember` (`handlers/manage_team_members.ts`). -/
inductive AddTeamMemberError where
  | teamNotFound
  | notCaptain
  | userNotFound
  | alreadyMember
deriving DecidableEq, Repr

/-- Spec taxonomy kind of each `addTeamMember` throw site. -/
def AddTeamMemberError.kind : AddTeamMemberError → ErrKind
  | .teamNotFound => .notFound
  | .notCaptain => .notAuthorized
  | .userNotFound => .notFound
  | .alreadyMember => .conflict

/-- `addTeamMember` (`handlers/manage_team_members.ts`): team lookup, captaincy
check against the caller, target-user existence check, duplicate-membership
check, then one insert (`joined_at` takes the `defaultNow()` column default). -/
def addTeamMember (db : DB) (input : AddTeamMemberInput) (captainId : Nat) (now : Nat) :
    Except AddTeamMemberError (DB × TeamMemberRow) :=
  match (db.teams.filter (fun t => t.id == input.team_id)).head? with
  | none => .error .teamNotFound
  | some team =>
    if team.captain_id != captainId then
      .error .notCaptain
    else if (db.users.filter (fun u => u.id == input.user_id)).length == 0 then
      .error .userNotFound
    else if 0 < (db.teamMembers.filter
          (fun m => m.team_id == input.team_id && m.user_id == input.user_id)).length then
      .error .alreadyMember
    else
      let member : TeamMemberRow :=
        { id := db.nextTeamMemberId
          team_id := input.team_id
          user_id := input.user_id
          joined_at := now }
      .ok ({ db with
              teamMembers := db.teamMembers ++ [member]
              nextTeamMemberId := db.nextTeamMemberId + 1 }, member)

/-- The distinct throw sites of `removeTeamMember` (`handlers/manage_team_members.ts`). -/
inductive RemoveTeamMemberError where
  | teamNotFound
  | notCaptain
  | captainRemoveSelf
  | notAMember
deriving DecidableEq, Repr

/-- Spec taxonomy kind of each `removeTeamMember` throw site. -/
def RemoveTeamMemberError.kind : RemoveTeamMemberError → ErrKind
  | .teamNotFound => .notFound
  | .notCaptain => .notAuthorized
  | .captainRemoveSelf => .invalidOperation
  | .notAMember => .notFound

/-- `removeTeamMember` (`handlers/manage_team_members.ts`): team lookup,
captaincy check, captain-self-removal guard, membership-existence check, then
one delete returning whether any row was deleted. -/
def removeTeamMember (db : DB) (teamId userId captainId : Nat) :
    Except RemoveTeamMemberError (DB × Bool) :=
  match (db.teams.filter (fun t => t.id == teamId)).head? with
  | none => .error .teamNotFound
  | some team =>
    if team.captain_id != captainId then
      .error .notCaptain
    else if userId == captainId then
      .error .captainRemoveSelf
    else if (db.teamMembers.filter
          (fun m => m.team_id == teamId && m.user_id == userId)).length == 0 then
      .error .notAMember
    else
      let deleted := db.teamMembers.filter
        (fun m => m.team_id == teamId && m.user_id == userId)
      let remaining := db.teamMembers.filter
        (fun m => !(m.team_id == teamId && m.user_id == userId))
      .ok ({ db with teamMembers := remaining }, 0 < deleted.length)

/-- The dedup step of `getTeamsByUser` (`get_teams.ts` lines 44–49): the body of
`allTeams.reduce((acc, team) => { if (!acc.find(t => t.id === team.id)) acc.push(team); return acc; }, [])`. -/
def dedupStep (acc : List TeamRow) (team : TeamRow) : List TeamRow :=
  if acc.any (fun t => t.id == team.id) then acc else acc ++ [team]

/-- `getTeamsByUser` (`handlers/get_teams.ts`): the teams captained by the user,
concatenated with the join `teams ⋈ team_members` filtered to the user's
membership rows, then deduplicated by team id with the source's `reduce`. -/
def getTeamsByUser (db : DB) (userId : Nat) : List TeamRow :=
  let captainTeams := db.teams.filter (fun t => t.captain_id == userId)
  let memberTeams := db.teams.flatMap fun t =>
    (db.teamMembers.filter (fun m => m.team_id == t.id && m.user_id == userId)).map fun _ => t
  let allTeams := captainTeams ++ memberTeams
  allTeams.foldl dedupStep []

/-- The store visible after a handler's result: unchanged on error (every throw
precedes the single write), the returned store on success. -/
def dbAfter {ε α : Type} (db : DB) : Except ε (DB × α) → DB
  | .ok (db', _) => db'
  | .error _ => db

/-- The row inserted by a successful `createBooking` (`create_booking.ts` lines
78–87, values clause plus the `status`/timestamp column defaults), for the slot
`s` the availability check resolved. -/
def insertedBooking (db : DB) (input : CreateBookingInput) (userId now : Nat)
    (s : FieldSlotRow) : BookingRow :=
  { id := db.nextBookingId
    slot_id := input.slot_id
    user_id := userId
    team_id := jsNumOrNull input.team_id
    status := .pending
    total_price := s.price
    notes := jsStrOrNull input.notes
    created_at := now
    updated_at := now }

/-- A concrete store used to evaluate the theorems on closed inputs: three
users; field 1 owned by user 2; slot 1 (price 100, available) and slot 2
(price 80, unavailable) on field 1; team 1 captained by user 3, with user 1 a
member and user 3 — the captain — also holding an explicit member row; one
confirmed booking of slot 1 by user 1. -/
def exDB : DB :=
  { users := [⟨1⟩, ⟨2⟩, ⟨3⟩]
    fields := [⟨1, 2⟩]
    fieldSlots := [⟨1, 1, 100, true⟩, ⟨2, 1, 80, false⟩]
    teams := [⟨1, 3, "Alpha", 5⟩]
    teamMembers := [⟨1, 1, 1, 0⟩, ⟨2, 1, 3, 0⟩]
    bookings := [⟨1, 1, 1, none, .confirmed, 100, none, 0, 0⟩]
    nextBookingId := 2
    nextTeamMemberId := 3 }

/-- The store produced by `createBooking exDB ⟨1, some 0, none⟩ 1 0`: the call
succeeds (the truthiness guard skips the team block for `team_id = 0`) and
appends a pending booking of slot 1 by user 1 with `team_id` stored as null. -/
def exDBAfterZeroTeam : DB :=
  { exDB with
      bookings := exDB.bookings ++ [⟨2, 1, 1, none, .pending, 100, none, 0, 0⟩]
      nextBookingId := 3 }

/-! ## Generic list lemmas -/

theorem head?_eq_cons {α : Type} {l : List α} {x : α} (h : l.head? = some x) :
    ∃ t, l = x :: t := by
  cases l <;> simp_all

theorem head?_filter_pred {α : Type} {l : List α} {p : α → Bool} {x : α}
    (h : (l.filter p).head? = some x) : p x = true := by
  obtain ⟨t, ht⟩ := head?_eq_cons h
  have hx : x ∈ l.filter p := by rw [ht]; exact List.mem_cons_self x t
  exact (List.mem_filter.mp hx).2

theorem head?_filter_map {α : Type} (l : List α) (g : α → α) (p : α → Bool)
    (hg : ∀ x, p (g x) = p x) :
    ((l.map g).filter p).head? = ((l.filter p).head?).map g := by
  induction l with
  | nil => rfl
  | cons a t ih =>
    rw [List.map_cons, List.filter_cons, List.filter_cons, hg a]
    cases hp : p a <;> simp [ih]

theorem filter_length_beq_zero_true {α : Type} (l : List α) (p : α → Bool) :
    (((l.filter p).length == 0) = true) ↔ ∀ a ∈ l, p a = false := by
  rw [beq_iff_eq, List.length_eq_zero, List.filter_eq_nil_iff]
  constructor
  · intro h a ha
    exact Bool.not_eq_true _ |>.mp (h a ha)
  · intro h a ha
    simp [h a ha]

theorem filter_length_beq_zero_false {α : Type} (l : List α) (p : α → Bool) :
    (((l.filter p).length == 0) = false) ↔ ∃ a ∈ l, p a = true := by
  rw [Bool.eq_false_iff, ne_eq, filter_length_beq_zero_true]
  constructor
  · intro h
    by_contra hn
    push_neg at hn
    exact h fun a ha => Bool.not_eq_true _ |>.mp (hn a ha)
  · rintro ⟨a, ha, hp⟩ h
    rw [h a ha] at hp
    exact Bool.false_ne_true hp

/-! ## `createBooking` evaluation lemmas -/

theorem createBooking_ok_inv {db db' : DB} {input : CreateBookingInput}
    {userId now : Nat} {b : BookingRow}
    (hok : createBooking db input userId now = .ok (db', b)) :
    ((db.users.filter (fun u => u.id == userId)).length == 0) = false ∧
    teamMembershipCheck db input.team_id userId = .ok () ∧
    ∃ s, (db.fieldSlots.filter (fun x => x.id == input.slot_id)).head? = some s ∧
      s.is_available = true ∧
      b = insertedBooking db input userId now s ∧
      db' = { db with
                bookings := db.bookings ++ [b]
                nextBookingId := db.nextBookingId + 1 } := by
  unfold createBooking at hok
  split at hok
  · simp at hok
  next huser =>
    split at hok
    · simp at hok
    next s heq =>
      split at hok
      · simp at hok
      next havail =>
        split at hok
        · simp at hok
        next u hteam =>
          simp only [Except.ok.injEq, Prod.mk.injEq] at hok
          obtain ⟨hdb, hb⟩ := hok
          refine ⟨Bool.not_eq_true _ |>.mp huser, ?_, s, heq, ?_, ?_, ?_⟩
          · rw [hteam]
          · simpa using havail
          · rw [← hb]; rfl
          · rw [← hdb, hb]

theorem createBooking_ok_intro (db : DB) (input : CreateBookingInput)
    (userId now : Nat) (s : FieldSlotRow)
    (huser : ((db.users.filter (fun u => u.id == userId)).length == 0) = false)
    (hslot : (db.fieldSlots.filter (fun x => x.id == input.slot_id)).head? = some s)
    (havail : s.is_available = true)
    (hteam : teamMembershipCheck db input.team_id userId = .ok ()) :
    createBooking db input userId now =
      .ok ({ db with
               bookings := db.bookings ++ [insertedBooking db input userId now s]
               nextBookingId := db.nextBookingId + 1 },
           insertedBooking db input userId now s) := by
  unfold createBooking
  rw [hslot, hteam]
  simp [huser, havail, insertedBooking]

theorem teamMembershipCheck_congr (db : DB) (B : List BookingRow) (n : Nat)
    (t : Option Nat) (u : Nat) :
    teamMembershipCheck { db with bookings := B, nextBookingId := n } t u =
      teamMembershipCheck db t u := by
  cases t <;> rfl

/-! ## Claim C1 -/

/-- C1: for every field slot whose `is_available` flag is false, `createBooking`
against that slot fails with the Conflict-kind error ("slot not available") and
no booking row is created; the hypotheses record that the check presupposes an
existing user and an existing slot. -/
theorem createBooking_unavailable_conflict (db : DB) (input : CreateBookingInput)
    (userId now : Nat) (s : FieldSlotRow)
    (huser : ∃ u ∈ db.users, u.id = userId)
    (hslot : (db.fieldSlots.filter (fun x => x.id == input.slot_id)).head? = some s)
    (hna : s.is_available = false) :
    createBooking db input userId now = .error .slotNotAvailable ∧
    (dbAfter db (createBooking db input userId now)).bookings = db.bookings ∧
    CreateBookingError.slotNotAvailable.kind = .conflict := by
  have huser' : ((db.users.filter (fun u => u.id == userId)).length == 0) = false :=
    (filter_length_beq_zero_false _ _).mpr
      (by obtain ⟨u, hu, h⟩ := huser; exact ⟨u, hu, by simp [h]⟩)
  have heq : createBooking db input userId now = .error .slotNotAvailable := by
    unfold createBooking
    rw [hslot]
    simp [huser', hna]
  exact ⟨heq, by rw [heq]; rfl, rfl⟩

/-- C1 witness: user 1 exists, slot 2 exists with `is_available = false`, and the
call fails with the Conflict-kind error, leaving the bookings table untouched. -/
theorem createBooking_unavailable_conflict_witness :
    createBooking exDB ⟨2, none, none⟩ 1 0 = .error .slotNotAvailable ∧
    (dbAfter exDB (createBooking exDB ⟨2, none, none⟩ 1 0)).bookings = exDB.bookings ∧
    CreateBookingError.slotNotAvailable.kind = .conflict :=
  createBooking_unavailable_conflict exDB ⟨2, none, none⟩ 1 0 ⟨2, 1, 80, false⟩
    ⟨⟨1⟩, by decide, rfl⟩ rfl rfl

/-! ## Claim C2 -/

/-- C2: every successful `createBooking` stores and returns a booking whose
`total_price` equals the referenced slot's `price` at creation time and whose
status is `pending`; replacing the slot table later (e.g. changing the slot's
price) leaves the stored booking row unchanged — the price is an immutable
snapshot, not a live reference. -/
theorem createBooking_price_snapshot (db db' : DB) (input : CreateBookingInput)
    (userId now : Nat) (b : BookingRow) (s : FieldSlotRow)
    (hslot : (db.fieldSlots.filter (fun x => x.id == input.slot_id)).head? = some s)
    (hok : createBooking db input userId now = .ok (db', b)) :
    b.total_price = s.price ∧ b.status = .pending ∧
    db'.bookings = db.bookings ++ [b] ∧
    ∀ slots₂ : List FieldSlotRow,
      ({ db' with fieldSlots := slots₂ } : DB).bookings = db.bookings ++ [b] := by
  obtain ⟨-, -, s₀, hs₀, -, hb, hdb⟩ := createBooking_ok_inv hok
  rw [hslot, Option.some.injEq] at hs₀
  subst hs₀
  refine ⟨by rw [hb]; rfl, by rw [hb]; rfl, by rw [hdb], ?_⟩
  intro slots₂
  rw [hdb]

/-- C2 witness: user 2 books slot 1 (price 100) at time 7; the stored booking has
`total_price = 100` and status `pending`, and replacing the slot table leaves it
unchanged. -/
theorem createBooking_price_snapshot_witness :
    (⟨2, 1, 2, none, .pending, 100, none, 7, 7⟩ : BookingRow).total_price =
      (⟨1, 1, 100, true⟩ : FieldSlotRow).price ∧
    (⟨2, 1, 2, none, .pending, 100, none, 7, 7⟩ : BookingRow).status = .pending ∧
    ({ exDB with
        bookings := exDB.bookings ++ [⟨2, 1, 2, none, .pending, 100, none, 7, 7⟩]
        nextBookingId := 3 } : DB).bookings =
      exDB.bookings ++ [⟨2, 1, 2, none, .pending, 100, none, 7, 7⟩] ∧
    ∀ slots₂ : List FieldSlotRow,
      ({ ({ exDB with
            bookings := exDB.bookings ++ [⟨2, 1, 2, none, .pending, 100, none, 7, 7⟩]
            nextBookingId := 3 } : DB) with fieldSlots := slots₂ } : DB).bookings =
        exDB.bookings ++ [⟨2, 1, 2, none, .pending, 100, none, 7, 7⟩] := by
  exact createBooking_price_snapshot exDB _ ⟨1, none, none⟩ 2 7 _ ⟨1, 1, 100, true⟩ rfl rfl

/-! ## Claim C5 -/

/-- C5: a successful `createBooking` leaves every other table — in particular the
slot table, so the slot's `is_available` flag — entirely unchanged, only
appending the new booking row; consequently a second `createBooking` for the
same input still passes the availability check and succeeds. -/
theorem createBooking_slot_frame (db db' : DB) (input : CreateBookingInput)
    (userId now now₂ : Nat) (b : BookingRow)
    (hok : createBooking db input userId now = .ok (db', b)) :
    db'.fieldSlots = db.fieldSlots ∧ db'.users = db.users ∧ db'.fields = db.fields ∧
    db'.teams = db.teams ∧ db'.teamMembers = db.teamMembers ∧
    db'.bookings = db.bookings ++ [b] ∧
    ∃ db'' b'', createBooking db' input userId now₂ = .ok (db'', b'') := by
  obtain ⟨huser, hteam, s, hs, havail, hb, hdb⟩ := createBooking_ok_inv hok
  subst hdb
  exact ⟨rfl, rfl, rfl, rfl, rfl, rfl, _, _,
    createBooking_ok_intro _ input userId now₂ s huser hs havail
      ((teamMembershipCheck_congr db _ _ input.team_id userId).trans hteam)⟩

/-- C5 witness: after user 2 books slot 1, all non-booking tables are unchanged
and the same booking call succeeds a second time. -/
theorem createBooking_slot_frame_witness :
    ({ exDB with
        bookings := exDB.bookings ++ [⟨2, 1, 2, none, .pending, 100, none, 7, 7⟩]
        nextBookingId := 3 } : DB).fieldSlots = exDB.fieldSlots ∧
    ({ exDB with
        bookings := exDB.bookings ++ [⟨2, 1, 2, none, .pending, 100, none, 7, 7⟩]
        nextBookingId := 3 } : DB).users = exDB.users ∧
    ({ exDB with
        bookings := exDB.bookings ++ [⟨2, 1, 2, none, .pending, 100, none, 7, 7⟩]
        nextBookingId := 3 } : DB).fields = exDB.fields ∧
    ({ exDB with
        bookings := exDB.bookings ++ [⟨2, 1, 2, none, .pending, 100, none, 7, 7⟩]
        nextBookingId := 3 } : DB).teams = exDB.teams ∧
    ({ exDB with
        bookings := exDB.bookings ++ [⟨2, 1, 2, none, .pending, 100, none, 7, 7⟩]
        nextBookingId := 3 } : DB).teamMembers = exDB.teamMembers ∧
    ({ exDB with
        bookings := exDB.bookings ++ [⟨2, 1, 2, none, .pending, 100, none, 7, 7⟩]
        nextBookingId := 3 } : DB).bookings =
      exDB.bookings ++ [⟨2, 1, 2, none, .pending, 100, none, 7, 7⟩] ∧
    ∃ db'' b'',
      createBooking
        { exDB with
            bookings := exDB.bookings ++ [⟨2, 1, 2, none, .pending, 100, none, 7, 7⟩]
            nextBookingId := 3 } ⟨1, none, none⟩ 2 8 = .ok (db'', b'') :=
  createBooking_slot_frame exDB _ ⟨1, none, none⟩ 2 7 8 _ rfl

/-! ## Claim C10 -/

/-- C10: calling `createBooking` with `team_id = 0` behaves exactly as if no
team had been supplied: the guard `if (input.team_id)` tests JS truthiness, so
the team-existence and team-membership checks are skipped, the stored
`team_id` is null on success, and no team-related error (`teamNotFound` /
`notTeamMember`) can be raised. -/
theorem createBooking_teamIdZero (db : DB) (sid : Nat) (n : Option String)
    (userId now : Nat) :
    createBooking db ⟨sid, some 0, n⟩ userId now =
      createBooking db ⟨sid, none, n⟩ userId now ∧
    (∀ db' b, createBooking db ⟨sid, some 0, n⟩ userId now = .ok (db', b) →
      b.team_id = none) ∧
    createBooking db ⟨sid, some 0, n⟩ userId now ≠ .error .teamNotFound ∧
    createBooking db ⟨sid, some 0, n⟩ userId now ≠ .error .notTeamMember := by
  refine ⟨rfl, ?_, ?_, ?_⟩
  · intro db' b h
    obtain ⟨-, -, s, -, -, hb, -⟩ := createBooking_ok_inv h
    rw [hb]
    rfl
  · intro h
    unfold createBooking at h
    split at h
    · simp at h
    · split at h
      · simp at h
      · split at h
        · simp at h
        · split at h
          · next e heq =>
              cases heq
          · simp at h
  · intro h
    unfold createBooking at h
    split at h
    · simp at h
    · split at h
      · simp at h
      · split at h
        · simp at h
        · split at h
          · next e heq =>
              cases heq
          · simp at h

/-- C10 witness: on the concrete store, booking slot 1 with `team_id = 0` (no
team with id 0 exists) equals the `team_id`-absent call. -/
theorem createBooking_teamIdZero_witness :
    createBooking exDB ⟨1, some 0, none⟩ 1 0 = createBooking exDB ⟨1, none, none⟩ 1 0 ∧
    createBooking exDB ⟨1, some 0, none⟩ 1 0 ≠ .error .teamNotFound :=
  ⟨(createBooking_teamIdZero exDB 1 none 1 0).1,
   (createBooking_teamIdZero exDB 1 none 1 0).2.2.1⟩

/-! ## Claim C3 -/

/-- C3 counterexample: a `createBooking` call that supplies the team id 0 — a
team id that does not exist in the store — does not fail with NotFound as the
claim requires: it succeeds and inserts a booking (the truthiness guard skips
the team-existence check for 0). -/
theorem createBooking_team_gate_counterexample :
    ((exDB.teams.filter (fun t => t.id == 0)).length = 0) ∧
    createBooking exDB ⟨1, some 0, none⟩ 1 0 =
      .ok (exDBAfterZeroTeam, ⟨2, 1, 1, none, .pending, 100, none, 0, 0⟩) :=
  ⟨rfl, rfl⟩

/-- C3 (amended to a nonzero supplied team id): for every `createBooking` call
that supplies a nonzero team id — given an existing user and an existing,
available slot — if the team does not exist the call fails with NotFound; if
the acting user is neither the team's captain nor holds a team-member row it
fails with NotAuthorized ("not a team member") and no booking row is created;
and if the user is captain or member the booking succeeds. -/
theorem createBooking_team_gate (db : DB) (input : CreateBookingInput)
    (userId now : Nat) (tid : Nat) (s : FieldSlotRow)
    (huser : ∃ u ∈ db.users, u.id = userId)
    (hslot : (db.fieldSlots.filter (fun x => x.id == input.slot_id)).head? = some s)
    (havail : s.is_available = true)
    (hteamid : input.team_id = some tid) (htid : tid ≠ 0) :
    ((¬ ∃ t ∈ db.teams, t.id = tid) →
        createBooking db input userId now = .error .teamNotFound) ∧
    ((∃ t ∈ db.teams, t.id = tid) →
      ((¬ (∃ t ∈ db.teams, t.id = tid ∧ t.captain_id = userId)) ∧
       (¬ (∃ m ∈ db.teamMembers, m.team_id = tid ∧ m.user_id = userId)) →
          createBooking db input userId now = .error .notTeamMember ∧
          (dbAfter db (createBooking db input userId now)).bookings = db.bookings) ∧
      ((∃ t ∈ db.teams, t.id = tid ∧ t.captain_id = userId) ∨
       (∃ m ∈ db.teamMembers, m.team_id = tid ∧ m.user_id = userId) →
          ∃ db' b, createBooking db input userId now = .ok (db', b))) := by
  have huser' : ((db.users.filter (fun u => u.id == userId)).length == 0) = false :=
    (filter_length_beq_zero_false _ _).mpr
      (by obtain ⟨u, hu, h⟩ := huser; exact ⟨u, hu, by simp [h]⟩)
  have htid' : (tid == 0) = false := by simp [htid]
  refine ⟨?_, ?_⟩
  · intro hno
    push_neg at hno
    have hteams : ((db.teams.filter (fun t => t.id == tid)).length == 0) = true :=
      (filter_length_beq_zero_true _ _).mpr (by intro a ha; simp [hno a ha])
    have hchk : teamMembershipCheck db input.team_id userId = .error .teamNotFound := by
      rw [hteamid]
      unfold teamMembershipCheck
      simp [htid', hteams]
    have heq : createBooking db input userId now = .error .teamNotFound := by
      unfold createBooking
      rw [hslot, hchk]
      simp [huser', havail]
    exact heq
  · intro hex
    have hteams : ((db.teams.filter (fun t => t.id == tid)).length == 0) = false :=
      (filter_length_beq_zero_false _ _).mpr
        (by obtain ⟨t, ht, h⟩ := hex; exact ⟨t, ht, by simp [h]⟩)
    refine ⟨?_, ?_⟩
    · rintro ⟨hnc, hnm⟩
      push_neg at hnc hnm
      have hcap : ((db.teams.filter
          (fun t => t.id == tid && t.captain_id == userId)).length == 0) = true :=
        (filter_length_beq_zero_true _ _).mpr (by
          intro a ha
          rcases Decidable.em (a.id = tid) with h | h
          · simp [h, hnc a ha h]
          · simp [h])
      have hmem : ((db.teamMembers.filter
          (fun m => m.team_id == tid && m.user_id == userId)).length == 0) = true :=
        (filter_length_beq_zero_true _ _).mpr (by
          intro a ha
          rcases Decidable.em (a.team_id = tid) with h | h
          · simp [h, hnm a ha h]
          · simp [h])
      have hchk : teamMembershipCheck db input.team_id userId = .error .notTeamMember := by
        rw [hteamid]
        unfold teamMembershipCheck
        simp [htid', hteams, hcap, hmem]
      have heq : createBooking db input userId now = .error .notTeamMember := by
        unfold createBooking
        rw [hslot, hchk]
        simp [huser', havail]
      exact ⟨heq, by rw [heq]; rfl⟩
    · intro hcm
      have hchk : teamMembershipCheck db input.team_id userId = .ok () := by
        rw [hteamid]
        unfold teamMembershipCheck
        rcases hcm with hcap | hmem
        · have hc : ((db.teams.filter
              (fun t => t.id == tid && t.captain_id == userId)).length == 0) = false :=
            (filter_length_beq_zero_false _ _).mpr
              (by obtain ⟨t, ht, h1, h2⟩ := hcap; exact ⟨t, ht, by simp [h1, h2]⟩)
          simp [htid', hteams, hc]
        · have hm : ((db.teamMembers.filter
              (fun m => m.team_id == tid && m.user_id == userId)).length == 0) = false :=
            (filter_length_beq_zero_false _ _).mpr
              (by obtain ⟨m, hm, h1, h2⟩ := hmem; exact ⟨m, hm, by simp [h1, h2]⟩)
          rcases Bool.eq_false_or_eq_true ((db.teams.filter
              (fun t => t.id == tid && t.captain_id == userId)).length == 0) with hc | hc
          · simp [htid', hteams, hc]
            exact hmem
          · simp [htid', hteams, hc]
      exact ⟨_, _, createBooking_ok_intro db input userId now s huser' hslot havail hchk⟩

/-- C3 witness: user 1 — a member (not captain) of existing team 1 — books the
available slot 1 with team id 1; the instantiated gate holds. -/
theorem createBooking_team_gate_witness :
    ((¬ ∃ t ∈ exDB.teams, t.id = 1) →
        createBooking exDB ⟨1, some 1, none⟩ 1 4 = .error .teamNotFound) ∧
    ((∃ t ∈ exDB.teams, t.id = 1) →
      ((¬ (∃ t ∈ exDB.teams, t.id = 1 ∧ t.captain_id = 1)) ∧
       (¬ (∃ m ∈ exDB.teamMembers, m.team_id = 1 ∧ m.user_id = 1)) →
          createBooking exDB ⟨1, some 1, none⟩ 1 4 = .error .notTeamMember ∧
          (dbAfter exDB (createBooking exDB ⟨1, some 1, none⟩ 1 4)).bookings =
            exDB.bookings) ∧
      ((∃ t ∈ exDB.teams, t.id = 1 ∧ t.captain_id = 1) ∨
       (∃ m ∈ exDB.teamMembers, m.team_id = 1 ∧ m.user_id = 1) →
          ∃ db' b, createBooking exDB ⟨1, some 1, none⟩ 1 4 = .ok (db', b))) :=
  createBooking_team_gate exDB ⟨1, some 1, none⟩ 1 4 1 ⟨1, 1, 100, true⟩
    ⟨⟨1⟩, by decide, rfl⟩ rfl rfl rfl (by decide)

/-! ## `updateBookingStatus` evaluation lemmas -/

theorem bookingJoinRows_head (db : DB) (bid : Nat) (b : BookingRow)
    (s : FieldSlotRow) (f : FieldRow)
    (hb : (db.bookings.filter (fun x => x.id == bid)).head? = some b)
    (hs : (db.fieldSlots.filter (fun x => x.id == b.slot_id)).head? = some s)
    (hf : (db.fields.filter (fun x => x.id == s.field_id)).head? = some f) :
    (bookingJoinRows db bid).head? = some (b, s, f) := by
  obtain ⟨tb, htb⟩ := head?_eq_cons hb
  obtain ⟨ts, hts⟩ := head?_eq_cons hs
  obtain ⟨tf, htf⟩ := head?_eq_cons hf
  unfold bookingJoinRows
  rw [htb, List.flatMap_cons, hts, List.flatMap_cons, htf, List.map_cons]
  rfl

/-! ## Claim C4 -/

/-- C4: for every existing booking (with its slot and field resolvable, as the
inner join requires), `updateBookingStatus` succeeds exactly when the caller is
the booking's creating user or the owner of the field reached via the slot;
any other caller gets NotAuthorized and the store is left unchanged. -/
theorem updateBookingStatus_authorization (db : DB) (bid : Nat)
    (st : BookingStatus) (userId now : Nat) (b : BookingRow) (s : FieldSlotRow)
    (f : FieldRow)
    (hb : (db.bookings.filter (fun x => x.id == bid)).head? = some b)
    (hs : (db.fieldSlots.filter (fun x => x.id == b.slot_id)).head? = some s)
    (hf : (db.fields.filter (fun x => x.id == s.field_id)).head? = some f) :
    ((¬ (userId = b.user_id ∨ userId = f.owner_id)) →
        updateBookingStatus db bid st userId now = .error .notAuthorized ∧
        dbAfter db (updateBookingStatus db bid st userId now) = db ∧
        UpdateBookingError.notAuthorized.kind = .notAuthorized) ∧
    ((userId = b.user_id ∨ userId = f.owner_id) →
        ∃ db' b', updateBookingStatus db bid st userId now = .ok (db', b')) := by
  have hjoin := bookingJoinRows_head db bid b s f hb hs hf
  constructor
  · intro hna
    push_neg at hna
    have hcond : (b.user_id != userId && f.owner_id != userId) = true := by
      simp [bne_iff_ne]
      exact ⟨fun h => hna.1 h.symm, fun h => hna.2 h.symm⟩
    have heq : updateBookingStatus db bid st userId now = .error .notAuthorized := by
      unfold updateBookingStatus
      rw [hjoin]
      simp [hcond]
    exact ⟨heq, by rw [heq]; rfl, rfl⟩
  · intro hauth
    have hcond : (b.user_id != userId && f.owner_id != userId) = false := by
      rcases hauth with h | h <;> simp [h]
    have hmap := head?_filter_map db.bookings
      (fun x => if x.id == bid then { x with status := st, updated_at := now } else x)
      (fun x => x.id == bid)
      (by intro x; by_cases h : (x.id == bid) = true <;> simp [h])
    unfold updateBookingStatus
    rw [hjoin]
    simp only [hcond, Bool.false_eq_true, if_false]
    rw [hmap, hb]
    exact ⟨_, _, rfl⟩

/-- C4 witness: booking 1 was created by user 1 on a field owned by user 2;
caller 3 is neither, so the update fails NotAuthorized with no state change
(and caller 1 would succeed). -/
theorem updateBookingStatus_authorization_witness :
    ((¬ ((3 : Nat) = 1 ∨ (3 : Nat) = 2)) →
        updateBookingStatus exDB 1 .pending 3 9 = .error .notAuthorized ∧
        dbAfter exDB (updateBookingStatus exDB 1 .pending 3 9) = exDB ∧
        UpdateBookingError.notAuthorized.kind = .notAuthorized) ∧
    (((3 : Nat) = 1 ∨ (3 : Nat) = 2) →
        ∃ db' b', updateBookingStatus exDB 1 .pending 3 9 = .ok (db', b')) := by
  exact updateBookingStatus_authorization exDB 1 .pending 3 9
    ⟨1, 1, 1, none, .confirmed, 100, none, 0, 0⟩ ⟨1, 1, 100, true⟩ ⟨1, 2⟩ rfl rfl rfl

/-! ## Claim C6 -/

/-- C6: for an existing booking and an authorized caller (booker or field
owner), `updateBookingStatus` sets the status to the requested value for every
target status and regardless of the current status — no transition table — and
refreshes `updated_at` to the current instant. -/
theorem updateBookingStatus_unrestricted (db : DB) (bid : Nat)
    (st : BookingStatus) (userId now : Nat) (b : BookingRow) (s : FieldSlotRow)
    (f : FieldRow)
    (hb : (db.bookings.filter (fun x => x.id == bid)).head? = some b)
    (hs : (db.fieldSlots.filter (fun x => x.id == b.slot_id)).head? = some s)
    (hf : (db.fields.filter (fun x => x.id == s.field_id)).head? = some f)
    (hauth : userId = b.user_id ∨ userId = f.owner_id) :
    updateBookingStatus db bid st userId now =
      .ok ({ db with bookings := (db.bookings.map
               (fun x => if x.id == bid then { x with status := st, updated_at := now }
                         else x)) },
           { b with status := st, updated_at := now }) ∧
    ({ b with status := st, updated_at := now } : BookingRow).status = st ∧
    ({ b with status := st, updated_at := now } : BookingRow).updated_at = now := by
  have hjoin := bookingJoinRows_head db bid b s f hb hs hf
  have hcond : (b.user_id != userId && f.owner_id != userId) = false := by
    rcases hauth with h | h <;> simp [h]
  have hmap := head?_filter_map db.bookings
    (fun x => if x.id == bid then { x with status := st, updated_at := now } else x)
    (fun x => x.id == bid)
    (by intro x; by_cases h : (x.id == bid) = true <;> simp [h])
  have hpb := head?_filter_pred hb
  simp only [] at hpb
  refine ⟨?_, rfl, rfl⟩
  unfold updateBookingStatus
  rw [hjoin]
  simp only [hcond, Bool.false_eq_true, if_false]
  rw [hmap, hb]
  simp [hpb]
  intro h
  exact absurd (by simpa using hpb) h

/-- C6 witness: the field owner (user 2) moves booking 1 from `confirmed` back
to `pending` — a reverse transition — and `updated_at` is refreshed to 9. -/
theorem updateBookingStatus_unrestricted_witness :
    updateBookingStatus exDB 1 .pending 2 9 =
      .ok ({ exDB with bookings := (exDB.bookings.map
               (fun x => if x.id == 1 then { x with status := .pending, updated_at := 9 }
                         else x)) },
           ⟨1, 1, 1, none, .pending, 100, none, 0, 9⟩) ∧
    (⟨1, 1, 1, none, .pending, 100, none, 0, 9⟩ : BookingRow).status = .pending ∧
    (⟨1, 1, 1, none, .pending, 100, none, 0, 9⟩ : BookingRow).updated_at = 9 := by
  exact updateBookingStatus_unrestricted exDB 1 .pending 2 9
    ⟨1, 1, 1, none, .confirmed, 100, none, 0, 0⟩ ⟨1, 1, 100, true⟩ ⟨1, 2⟩
    rfl rfl rfl (Or.inr rfl)

/-! ## Claim C7 -/

/-- C7: for every existing team and every caller who is not the team's captain,
both `addTeamMember` and `removeTeamMember` fail with the NotAuthorized-kind
error — regardless of the caller's relationship to the team (the hypotheses say
nothing about membership) — and the `team_members` table is untouched. -/
theorem captain_exclusivity (db : DB) (T : TeamRow)
    (teamId targetUser callerU now : Nat)
    (hteam : (db.teams.filter (fun t => t.id == teamId)).head? = some T)
    (hnc : T.captain_id ≠ callerU) :
    addTeamMember db ⟨teamId, targetUser⟩ callerU now = .error .notCaptain ∧
    removeTeamMember db teamId targetUser callerU = .error .notCaptain ∧
    (dbAfter db (addTeamMember db ⟨teamId, targetUser⟩ callerU now)).teamMembers =
      db.teamMembers ∧
    (dbAfter db (removeTeamMember db teamId targetUser callerU)).teamMembers =
      db.teamMembers ∧
    AddTeamMemberError.notCaptain.kind = .notAuthorized ∧
    RemoveTeamMemberError.notCaptain.kind = .notAuthorized := by
  have hadd : addTeamMember db ⟨teamId, targetUser⟩ callerU now = .error .notCaptain := by
    unfold addTeamMember
    rw [hteam]
    simp [hnc]
  have hrem : removeTeamMember db teamId targetUser callerU = .error .notCaptain := by
    unfold removeTeamMember
    rw [hteam]
    simp [hnc]
  exact ⟨hadd, hrem, by rw [hadd]; rfl, by rw [hrem]; rfl, rfl, rfl⟩

/-- C7 witness: team 1 is captained by user 3; caller 1 — who even holds a
member row for team 1 — cannot add user 2 nor remove user 3's members. -/
theorem captain_exclusivity_witness :
    addTeamMember exDB ⟨1, 2⟩ 1 0 = .error .notCaptain ∧
    removeTeamMember exDB 1 2 1 = .error .notCaptain ∧
    (dbAfter exDB (addTeamMember exDB ⟨1, 2⟩ 1 0)).teamMembers = exDB.teamMembers ∧
    (dbAfter exDB (removeTeamMember exDB 1 2 1)).teamMembers = exDB.teamMembers ∧
    AddTeamMemberError.notCaptain.kind = .notAuthorized ∧
    RemoveTeamMemberError.notCaptain.kind = .notAuthorized :=
  captain_exclusivity exDB ⟨1, 3, "Alpha", 5⟩ 1 2 1 0 rfl (by decide)

/-! ## Claim C8 -/

/-- C8: for every existing team, `removeTeamMember` called by the captain with
the captain themselves as target always fails with the InvalidOperation-kind
error ("captain cannot remove themselves"); the guard precedes the
membership-existence check, so this holds for every `team_members` table state,
including one with no row for the captain. -/
theorem captain_self_protection (db : DB) (T : TeamRow) (teamId capId : Nat)
    (hteam : (db.teams.filter (fun t => t.id == teamId)).head? = some T)
    (hcap : T.captain_id = capId) :
    removeTeamMember db teamId capId capId = .error .captainRemoveSelf ∧
    (dbAfter db (removeTeamMember db teamId capId capId)).teamMembers =
      db.teamMembers ∧
    RemoveTeamMemberError.captainRemoveSelf.kind = .invalidOperation := by
  have heq : removeTeamMember db teamId capId capId = .error .captainRemoveSelf := by
    unfold removeTeamMember
    rw [hteam]
    simp [hcap]
  exact ⟨heq, by rw [heq]; rfl, rfl⟩

/-- C8 witness: captain 3 of team 1 — who holds no member row in a variant of
the store without one — cannot remove themselves; the failure is
InvalidOperation before any membership lookup. -/
theorem captain_self_protection_witness :
    removeTeamMember { exDB with teamMembers := [⟨1, 1, 1, 0⟩] } 1 3 3 =
      .error .captainRemoveSelf ∧
    (dbAfter { exDB with teamMembers := [⟨1, 1, 1, 0⟩] }
        (removeTeamMember { exDB with teamMembers := [⟨1, 1, 1, 0⟩] } 1 3 3)).teamMembers =
      ({ exDB with teamMembers := [⟨1, 1, 1, 0⟩] } : DB).teamMembers ∧
    RemoveTeamMemberError.captainRemoveSelf.kind = .invalidOperation :=
  captain_self_protection { exDB with teamMembers := [⟨1, 1, 1, 0⟩] }
    ⟨1, 3, "Alpha", 5⟩ 1 3 rfl rfl

/-! ## Dedup lemmas for `getTeamsByUser` -/

theorem foldl_dedupStep_any (l : List TeamRow) (acc : List TeamRow) (i : Nat) :
    ((l.foldl dedupStep acc).any (fun t => t.id == i)) =
      (acc.any (fun t => t.id == i) || l.any (fun t => t.id == i)) := by
  induction l generalizing acc with
  | nil => simp
  | cons a t ih =>
    rw [List.foldl_cons, ih, List.any_cons]
    unfold dedupStep
    by_cases h : acc.any (fun x => x.id == a.id) = true
    · rw [if_pos h]
      by_cases hi : a.id = i
      · subst hi
        simp [h]
      · have : (a.id == i) = false := by simp [hi]
        simp [this]
    · rw [if_neg h]
      simp [List.any_append, Bool.or_assoc]

theorem foldl_dedupStep_subset (l : List TeamRow) (acc : List TeamRow) (x : TeamRow)
    (hx : x ∈ l.foldl dedupStep acc) : x ∈ acc ∨ x ∈ l := by
  induction l generalizing acc with
  | nil => simp_all
  | cons a t ih =>
    rw [List.foldl_cons] at hx
    rcases ih (dedupStep acc a) hx with h | h
    · unfold dedupStep at h
      by_cases hc : acc.any (fun y => y.id == a.id) = true
      · rw [if_pos hc] at h
        exact .inl h
      · rw [if_neg hc] at h
        rcases List.mem_append.mp h with h' | h'
        · exact .inl h'
        · simp only [List.mem_singleton] at h'
          subst h'
          exact .inr (List.mem_cons_self x t)
    · exact .inr (List.mem_cons_of_mem a h)

theorem foldl_dedupStep_nodup (l : List TeamRow) (acc : List TeamRow)
    (h : (acc.map (fun t => t.id)).Nodup) :
    (((l.foldl dedupStep acc)).map (fun t => t.id)).Nodup := by
  induction l generalizing acc with
  | nil => simpa
  | cons a t ih =>
    rw [List.foldl_cons]
    apply ih
    unfold dedupStep
    by_cases hc : acc.any (fun y => y.id == a.id) = true
    · rw [if_pos hc]
      exact h
    · rw [if_neg hc]
      rw [List.map_append, List.map_singleton, List.nodup_append]
      refine ⟨h, List.nodup_singleton _, ?_⟩
      intro i hi hmem
      simp only [List.mem_singleton] at hmem
      subst hmem
      obtain ⟨y, hy, hyid⟩ := List.mem_map.mp hi
      exact hc (List.any_eq_true.mpr ⟨y, hy, by simp [hyid]⟩)

theorem foldl_dedupStep_id_complete (l : List TeamRow) (acc : List TeamRow)
    (x : TeamRow) (hx : x ∈ l) :
    ∃ y ∈ l.foldl dedupStep acc, y.id = x.id := by
  have h := foldl_dedupStep_any l acc x.id
  have hl : l.any (fun t => t.id == x.id) = true :=
    List.any_eq_true.mpr ⟨x, hx, by simp⟩
  rw [hl, Bool.or_true] at h
  obtain ⟨y, hy, hyid⟩ := List.any_eq_true.mp h
  exact ⟨y, hy, by simpa using hyid⟩

/-! ## Claim C9 -/

/-- C9: `getTeamsByUser` returns the union, deduplicated by team id, of the
teams the user captains and the teams the user holds a member row for: under
unique team ids, a team is in the result exactly when the user is its captain
or member, each such team appears exactly once (the returned ids are nodup —
in particular a user who is both captain and member of a team sees it once),
and no other team appears. -/
theorem getTeamsByUser_dedup (db : DB) (userId : Nat)
    (hids : (db.teams.map (fun t => t.id)).Nodup) :
    (∀ t, t ∈ getTeamsByUser db userId ↔
        t ∈ db.teams ∧ (t.captain_id = userId ∨
          ∃ m ∈ db.teamMembers, m.team_id = t.id ∧ m.user_id = userId)) ∧
    ((getTeamsByUser db userId).map (fun t => t.id)).Nodup := by
  have hall : ∀ t,
      t ∈ (db.teams.filter (fun t => t.captain_id == userId)) ++
          (db.teams.flatMap fun t₀ =>
            (db.teamMembers.filter
              (fun m => m.team_id == t₀.id && m.user_id == userId)).map fun _ => t₀) ↔
      t ∈ db.teams ∧ (t.captain_id = userId ∨
        ∃ m ∈ db.teamMembers, m.team_id = t.id ∧ m.user_id = userId) := by
    intro t
    rw [List.mem_append, List.mem_filter, List.mem_flatMap]
    constructor
    · rintro (⟨ht, hc⟩ | ⟨t₀, ht₀, hmem⟩)
      · exact ⟨ht, .inl (by simpa using hc)⟩
      · obtain ⟨m, hm, hmt⟩ := List.mem_map.mp hmem
        have := List.mem_filter.mp hm
        subst hmt
        refine ⟨ht₀, .inr ⟨m, this.1, ?_⟩⟩
        simpa [Bool.and_eq_true] using this.2
    · rintro ⟨ht, hc | ⟨m, hm, h1, h2⟩⟩
      · exact .inl ⟨ht, by simpa using hc⟩
      · refine .inr ⟨t, ht, List.mem_map.mpr ⟨m, List.mem_filter.mpr ⟨hm, ?_⟩, rfl⟩⟩
        simp [h1, h2]

  constructor
  · intro t
    constructor
    · intro ht
      rcases foldl_dedupStep_subset _ [] t ht with h | h
      · simp at h
      · exact (hall t).mp h
    · intro hq
      have hmem := (hall t).mpr hq
      obtain ⟨y, hy, hyid⟩ := foldl_dedupStep_id_complete _ [] t hmem
      have hy' : y ∈ db.teams := by
        rcases foldl_dedupStep_subset _ [] y hy with h | h
        · simp at h
        · exact ((hall y).mp h).1
      have : y = t :=
        List.inj_on_of_nodup_map hids hy' hq.1 hyid
      rwa [this] at hy
  · exact foldl_dedupStep_nodup _ [] (by simp)

/-- C9 witness: user 3 is both the captain of team 1 and an explicit member of
it; `getTeamsByUser` returns team 1 exactly once and nothing else. -/
theorem getTeamsByUser_dedup_witness :
    ((⟨1, 3, "Alpha", 5⟩ : TeamRow) ∈ getTeamsByUser exDB 3 ↔
        (⟨1, 3, "Alpha", 5⟩ : TeamRow) ∈ exDB.teams ∧
          ((⟨1, 3, "Alpha", 5⟩ : TeamRow).captain_id = 3 ∨
            ∃ m ∈ exDB.teamMembers,
              m.team_id = (⟨1, 3, "Alpha", 5⟩ : TeamRow).id ∧ m.user_id = 3)) ∧
    ((getTeamsByUser exDB 3).map (fun t => t.id)).Nodup :=
  ⟨((getTeamsByUser_dedup exDB 3 (by decide)).1 ⟨1, 3, "Alpha", 5⟩),
   (getTeamsByUser_dedup exDB 3 (by decide)).2⟩

end TurfMatch
